import Mathlib

/-!
Verification of the port-interface extractor `get_module_io.py`.

The Python script reads a Verilog/SystemVerilog source file into one string
and then (lines 121-188):
  * compiles four regular expressions (module name, parameters, inputs,
    outputs), each guarded by the negative lookbehind
    `(?<!(?: |/|[a-zA-Z\_]))`;
  * runs `re.findall` with the module-name pattern and aborts (printing
    `moduleNameNotIdentified`) unless exactly one match is found;
  * runs `re.findall` with the input pattern and the output pattern; an
    empty list only triggers an advisory print (`noInputsIdentified` /
    `noOutputsIdentified`), but it also leaves `numInputs` / `numOutputs`
    unassigned, so the later `for i in range(0, numInputs)` loops raise a
    Python `NameError` in that case;
  * folds the raw 5-tuples into insertion-ordered dictionaries keyed by
    signal name (`dict[name] = {...}`: last write wins), concatenating the
    two dimension captures;
  * writes a CSV with header `Signal Name, Input/Output, Signal Type,
    Dimension`, the input rows first, then the output rows.

The definitions below embed that pipeline.  The regular expressions are
embedded as hand-rolled matchers that implement exactly the Python engine's
semantics for these patterns (leftmost scan, ordered alternation, greedy
option/repetition with backtracking; every repetition in these patterns is
over a character class, so the backtracking needed is the finite
take-the-option-or-skip-it choice encoded with ordered fallbacks).  Sources
are treated as ASCII text, for which Python's `\s` is ` \t\n\r\x0b\x0c` and
`\w` is `[a-zA-Z0-9_]`.
-/

namespace ModuleIo

/-- Python `\s` on ASCII text: space, tab, newline, carriage return,
vertical tab, form feed. -/
def isPySpace (c : Char) : Bool :=
  c = ' ' || c = '\t' || c = '\n' || c = Char.ofNat 13 || c = Char.ofNat 11 || c = Char.ofNat 12

/-- The character class `[a-zA-Z\_0-9]` (also Python's ASCII `\w`, used by
the `\b` boundary after `wire`/`reg`). -/
def isWordChar (c : Char) : Bool :=
  ('a' ≤ c && c ≤ 'z') || ('A' ≤ c && c ≤ 'Z') || ('0' ≤ c && c ≤ '9') || c = '_'

/-- The character class `[a-zA-Z\_]`. -/
def isAlphaUnd (c : Char) : Bool :=
  ('a' ≤ c && c ≤ 'z') || ('A' ≤ c && c ≤ 'Z') || c = '_'

/-- The set matched by the negative lookbehind `(?<!(?: |/|[a-zA-Z\_]))`
shared by every pattern of the script: space, slash, letter or underscore. -/
def isLookbehindExcluded (c : Char) : Bool :=
  c = ' ' || c = '/' || isAlphaUnd c

/-- Content class of a literal bracket expression,
`` [`a-zA-Z0-9\_\-\+\:\*/ ] ``: backtick, word characters, `-`, `+`, `:`,
`*`, `/`, space. -/
def isBracketContentChar (c : Char) : Bool :=
  c = Char.ofNat 96 || isWordChar c || c = '-' || c = '+' || c = ':' || c = '*' || c = '/' || c = ' '

/-- Character class of the signal-name group `[a-zA-Z\_0-9\$\{\}]`. -/
def isNameChar (c : Char) : Bool :=
  isWordChar c || c = '$' || c = Char.ofNat 123 || c = Char.ofNat 125

/-- Strip a literal from the front of the text, as the regex engine does for
a sequence of literal characters. -/
def stripPre : List Char → List Char → Option (List Char)
  | [], cs => some cs
  | _ :: _, [] => none
  | p :: ps, c :: cs => if p = c then stripPre ps cs else none

/-- Greedy `\s*`: drop the maximal run of whitespace. -/
def dropSpaces (cs : List Char) : List Char := cs.dropWhile isPySpace

/-- One raw `findall` tuple of the input/output pattern: the five capture
groups `(input){1}`, `(wire\b|reg\b)?`, the two dimension groups and the
name group, in order. -/
structure RawPort where
  keyword : String
  storageClassRaw : String
  dimA : String
  dimB : String
  name : String
deriving DecidableEq, Repr

/-- The `reg\b` alternative of the storage-class group.  `\b` succeeds when
the next character is not a word character (or the text ends). -/
def matchReg (cs : List Char) : Option (List Char × List Char) :=
  match stripPre "reg".data cs with
  | some r =>
    match r with
    | [] => some ("reg".data, [])
    | c :: _ => if isWordChar c then none else some ("reg".data, r)
  | none => none

/-- Greedy `(wire\b|reg\b)?` tried in alternation order; returns the capture
and the rest. -/
def matchStorage (cs : List Char) : Option (List Char × List Char) :=
  match stripPre "wire".data cs with
  | some r =>
    match r with
    | [] => some ("wire".data, [])
    | c :: _ => if isWordChar c then matchReg cs else some ("wire".data, r)
  | none => matchReg cs

/-- The literal-bracket alternative `` \[[`a-zA-Z0-9\_\-\+\:\*/ ]+\] `` of a
dimension group; the capture includes the brackets.  Deterministic: the
content class excludes `]`. -/
def matchBracketExpr (cs : List Char) : Option (List Char × List Char) :=
  match cs with
  | '[' :: rest =>
    let content := rest.takeWhile isBracketContentChar
    let rest2 := rest.dropWhile isBracketContentChar
    if content.isEmpty then none
    else
      match rest2 with
      | ']' :: rest3 => some ('[' :: content ++ [']'], rest3)
      | _ => none
  | _ => none

/-- The template alternative `\$\$\{[a-zA-Z\_]+\}` of a dimension group. -/
def matchDollarBrace (cs : List Char) : Option (List Char × List Char) :=
  match cs with
  | '$' :: '$' :: c :: rest =>
    if c = Char.ofNat 123 then
      let content := rest.takeWhile isAlphaUnd
      let rest2 := rest.dropWhile isAlphaUnd
      if content.isEmpty then none
      else
        match rest2 with
        | d :: rest3 =>
          if d = Char.ofNat 125 then
            some ('$' :: '$' :: Char.ofNat 123 :: content ++ [Char.ofNat 125], rest3)
          else none
        | [] => none
    else none
  | _ => none

/-- The template alternative `\$\[[a-zA-Z\_]+\]` of a dimension group. -/
def matchDollarBracket (cs : List Char) : Option (List Char × List Char) :=
  match cs with
  | '$' :: '[' :: rest =>
    let content := rest.takeWhile isAlphaUnd
    let rest2 := rest.dropWhile isAlphaUnd
    if content.isEmpty then none
    else
      match rest2 with
      | ']' :: rest3 => some ('$' :: '[' :: content ++ [']'], rest3)
      | _ => none
  | _ => none

/-- Ordered choice: the engine commits to the first branch when it succeeds
and otherwise tries the second at the same position. -/
def orElseO {α : Type} (a b : Option α) : Option α :=
  match a with
  | some x => some x
  | none => b

/-- A dimension group
`(\[...\]|\$\$\{[a-zA-Z\_]+\}|\$\[[a-zA-Z\_]+\])`, alternatives in pattern
order (their first two characters make them mutually exclusive). -/
def matchDim (cs : List Char) : Option (List Char × List Char) :=
  orElseO (matchBracketExpr cs) (orElseO (matchDollarBrace cs) (matchDollarBracket cs))

/-- The tail `\s*([a-zA-Z\_0-9\$\{\}]+)\s*,?` of the port pattern: skip
whitespace, capture a non-empty greedy name, then consume `\s*` and an
optional comma (the match end includes both, as in the Python engine). -/
def matchNameTail (cs : List Char) : Option (List Char × List Char) :=
  let cs1 := dropSpaces cs
  let nm := cs1.takeWhile isNameChar
  let cs2 := cs1.dropWhile isNameChar
  if nm.isEmpty then none
  else
    let cs3 := dropSpaces cs2
    match cs3 with
    | ',' :: r => some (nm, r)
    | r => some (nm, r)

/-- Build a `RawPort` once the name group matches. -/
def finishName (kw g2 g3 g4 : String) (cs : List Char) : Option (RawPort × List Char) :=
  match matchNameTail cs with
  | some (nm, r) => some (⟨kw, g2, g3, g4, String.mk nm⟩, r)
  | none => none

/-- Second dimension group then the name tail, with the engine's
take-or-skip backtracking for the optional group. -/
def portFrom4 (kw g2 g3 : String) (cs : List Char) : Option (RawPort × List Char) :=
  match matchDim cs with
  | some (d, r) => orElseO (finishName kw g2 g3 (String.mk d) r) (finishName kw g2 g3 "" cs)
  | none => finishName kw g2 g3 "" cs

/-- First dimension group (followed by `\s*`) then the rest, with
take-or-skip backtracking. -/
def portFrom3 (kw g2 : String) (cs : List Char) : Option (RawPort × List Char) :=
  match matchDim cs with
  | some (d, r) => orElseO (portFrom4 kw g2 (String.mk d) (dropSpaces r)) (portFrom4 kw g2 "" cs)
  | none => portFrom4 kw g2 "" cs

/-- Storage-class group (followed by `\s*`) then the rest, with take-or-skip
backtracking: on a downstream failure the engine retries with the group
skipped (the two keyword alternatives are mutually exclusive). -/
def portFromG2 (kw : String) (cs : List Char) : Option (RawPort × List Char) :=
  match matchStorage cs with
  | some (g2, r) =>
    orElseO (portFrom3 kw (String.mk g2) (dropSpaces r)) (portFrom3 kw "" (dropSpaces cs))
  | none => portFrom3 kw "" (dropSpaces cs)

/-- Match the whole input/output pattern (without the lookbehind) at the
head of `cs`: the literal keyword, mandatory `\s+`, then the optional
groups and the name.  Returns the capture tuple and the unconsumed rest. -/
def matchPortAt (kw : String) (cs : List Char) : Option (RawPort × List Char) :=
  match stripPre kw.data cs with
  | none => none
  | some r0 =>
    if (r0.takeWhile isPySpace).isEmpty then none
    else portFromG2 kw (r0.dropWhile isPySpace)

/-- Match the module-name pattern
`module\s+(?:\$\[PREFIX\])?([a-zA-Z\_0-9]+)[\n\s]*#?[\n\s]*\(` (without the
lookbehind) at the head of `cs`; returns the captured identifier and the
rest.  Every option here is forced (the follower classes are disjoint from
the optional text), so no backtracking is needed. -/
def matchModuleNameAt (cs : List Char) : Option (List Char × List Char) :=
  match stripPre "module".data cs with
  | none => none
  | some r0 =>
    let sp := r0.takeWhile isPySpace
    let r1 := r0.dropWhile isPySpace
    if sp.isEmpty then none
    else
      let r2 := match stripPre "$[PREFIX]".data r1 with
                | some r => r
                | none => r1
      let ident := r2.takeWhile isWordChar
      let r3 := r2.dropWhile isWordChar
      if ident.isEmpty then none
      else
        let r4 := dropSpaces r3
        let r5 := match r4 with
                  | '#' :: rr => dropSpaces rr
                  | _ => r4
        match r5 with
        | '(' :: r6 => some (ident, r6)
        | _ => none

/-- One bracketed repetition `\[...\]\s*` of the parameter pattern. -/
def matchParamBracket (cs : List Char) : Option (List Char) :=
  match matchBracketExpr cs with
  | some (_, r) => some (dropSpaces r)
  | none => none

/-- Match the parameter pattern
`` parameter\s*(?:\[[`a-zA-Z0-9\_\-\+\:\*/ ]+\]\s*){0,2}\s*([a-zA-Z\_0-9]+)\s*= ``
(without the lookbehind) at the head of `cs`; returns the captured
identifier and the rest.  The greedy `{0,2}` repetition is forced: a
repetition starts with `[`, which neither the following `\s*` nor the
identifier class can consume. -/
def matchParamAt (cs : List Char) : Option (List Char × List Char) :=
  match stripPre "parameter".data cs with
  | none => none
  | some r0 =>
    let r1 := dropSpaces r0
    let r2 := match matchParamBracket r1 with
              | some rr =>
                match matchParamBracket rr with
                | some rrr => rrr
                | none => rr
              | none => r1
    let ident := r2.takeWhile isWordChar
    let r3 := r2.dropWhile isWordChar
    if ident.isEmpty then none
    else
      match dropSpaces r3 with
      | '=' :: r4 => some (ident, r4)
      | _ => none

/-- The negative lookbehind `(?<!(?: |/|[a-zA-Z\_]))` as a predicate on a
position of the whole text: position `0` qualifies, and position `j + 1`
qualifies when the character at `j` is not space, slash, letter or
underscore.  In `re.findall` the lookbehind inspects the original string,
so it is a pure function of text and position. -/
def allowedAt (s : List Char) (i : Nat) : Bool :=
  if i = 0 then true
  else
    match s[i - 1]? with
    | some c => !isLookbehindExcluded c
    | none => true

/-- A reported match of the scan: start position, end position (the scan
resumes there) and the capture tuple. -/
structure Hit where
  start : Nat
  stop : Nat
  raw : RawPort
deriving DecidableEq, Repr

/-- The `re.findall` scan for a port pattern: try each position from left
to right, skip positions rejected by the lookbehind, and after a match
resume at its end (Python reports non-overlapping matches; an empty match
would advance by one, and `max 1` encodes that general rule even though
these matches are never empty).  `fuel` only bounds the recursion; the
callers pass enough for the whole text. -/
def scanHits (kw : String) (s : List Char) : Nat → Nat → List Hit
  | 0, _ => []
  | fuel + 1, i =>
    if i < s.length then
      if allowedAt s i then
        match matchPortAt kw (s.drop i) with
        | some (t, rest) =>
          let j := i + max 1 ((s.drop i).length - rest.length)
          ⟨i, j, t⟩ :: scanHits kw s fuel j
        | none => scanHits kw s fuel (i + 1)
      else scanHits kw s fuel (i + 1)
    else []

/-- All matches of the input (`kw = "input"`) or output (`kw = "output"`)
pattern over the source text, with positions. -/
def portHits (kw : String) (s : String) : List Hit :=
  scanHits kw s.data (s.data.length + 1) 0

/-- `re.findall(moduleInputsPattern, ...)` / `re.findall(moduleOutputsPattern, ...)`
(script lines 137 and 145): the ordered list of raw capture tuples. -/
def findallPorts (kw : String) (s : String) : List RawPort :=
  (portHits kw s).map Hit.raw

/-- The `re.findall` scan for the module-name pattern, returning the single
capture group (the identifier) of each match. -/
def scanNames (s : List Char) : Nat → Nat → List String
  | 0, _ => []
  | fuel + 1, i =>
    if i < s.length then
      if allowedAt s i then
        match matchModuleNameAt (s.drop i) with
        | some (ident, rest) =>
          String.mk ident :: scanNames s fuel (i + max 1 ((s.drop i).length - rest.length))
        | none => scanNames s fuel (i + 1)
      else scanNames s fuel (i + 1)
    else []

/-- `re.findall(moduleNamePattern, moduleContents)` (script line 128). -/
def findallModuleName (s : String) : List String :=
  scanNames s.data (s.data.length + 1) 0

/-- The `re.findall` scan for the parameter pattern (the script compiles
this pattern at line 123 but never runs it). -/
def scanParams (s : List Char) : Nat → Nat → List String
  | 0, _ => []
  | fuel + 1, i =>
    if i < s.length then
      if allowedAt s i then
        match matchParamAt (s.drop i) with
        | some (ident, rest) =>
          String.mk ident :: scanParams s fuel (i + max 1 ((s.drop i).length - rest.length))
        | none => scanParams s fuel (i + 1)
      else scanParams s fuel (i + 1)
    else []

/-- What `re.findall(moduleParamsPattern, ...)` would return; the script
never calls it. -/
def findallParams (s : String) : List String :=
  scanParams s.data (s.data.length + 1) 0

/-- The per-port record stored as the dictionary value (script lines
160-162): `signalType` is capture 2, `signalDimension` the concatenation of
captures 3 and 4. -/
structure PortInfo where
  signalType : String
  signalDimension : String
deriving DecidableEq, Repr

/-- The dictionary value built from one raw tuple. -/
def tupleInfo (t : RawPort) : PortInfo :=
  ⟨t.storageClassRaw, t.dimA ++ t.dimB⟩

/-- Python `dict` assignment `d[k] = v` on an insertion-ordered association
list with unique keys: replace the value in place if the key exists,
otherwise append. -/
def upsert : List (String × PortInfo) → String → PortInfo → List (String × PortInfo)
  | [], k, v => [(k, v)]
  | (k0, v0) :: m, k, v => if k0 = k then (k0, v) :: m else (k0, v0) :: upsert m k v

/-- The dictionary-building loops (script lines 156-169): fold the raw
tuples into an insertion-ordered map keyed by signal name. -/
def buildDict (ts : List RawPort) : List (String × PortInfo) :=
  ts.foldl (fun m t => upsert m t.name (tupleInfo t)) []

/-- Association-list lookup (Python `d[k]`). -/
def dlookup (k : String) : List (String × PortInfo) → Option PortInfo
  | [] => none
  | (k0, v) :: m => if k0 = k then some v else dlookup k m

/-- The CSV rows written by the script (lines 175-183): the header row, then
one row per input in map order, then one row per output in map order.  The
`Signal Type` cell is the raw storage capture, hence the empty string for an
unspecified storage class. -/
def reportRows (ins outs : List (String × PortInfo)) : List (List String) :=
  ["Signal Name", "Input/Output", "Signal Type", "Dimension"] ::
    (ins.map (fun kv => [kv.1, "Input", kv.2.signalType, kv.2.signalDimension]) ++
     outs.map (fun kv => [kv.1, "Output", kv.2.signalType, kv.2.signalDimension]))

/-- The messages the script prints (lines 52-70) that the extraction part
can emit, as named conditions.  `noParamsFound` is defined by the script
(line 68) but, like the parameter pattern, never used. -/
inductive Msg
  | moduleNameNotIdentified
  | noInputsIdentified
  | noOutputsIdentified
  | noParamsFound
deriving DecidableEq, Repr

/-- How one extraction run ends: abort after the module-name check (line
132 `exit()`), crash with a Python `NameError` because `numInputs` or
`numOutputs` was never assigned (lines 156/163 when a match list was
empty), or write the named CSV file. -/
inductive Outcome
  | abortedNoModuleName
  | nameError
  | report (fileName : String) (rows : List (List String))
deriving DecidableEq, Repr

/-- Observable result of one run: the conditions printed, and the outcome. -/
structure RunResult where
  messages : List Msg
  outcome : Outcome
deriving DecidableEq, Repr

/-- The advisory messages printed at lines 138-139 and 146-147, in print
order. -/
def runMsgs (ins outs : List RawPort) : List Msg :=
  (if ins.isEmpty then [Msg.noInputsIdentified] else []) ++
  (if outs.isEmpty then [Msg.noOutputsIdentified] else [])

/-- The run after the module name resolved to `n` (script lines 136-188).
If either match list is empty the advisory messages are printed, but the
corresponding `numInputs`/`numOutputs` variable is unbound and the
dictionary loop raises `NameError` before any CSV row is written. -/
def runWithName (n : String) (src : String) : RunResult :=
  let ins := findallPorts "input" src
  let outs := findallPorts "output" src
  if ins.isEmpty || outs.isEmpty then
    ⟨runMsgs ins outs, Outcome.nameError⟩
  else
    ⟨runMsgs ins outs, Outcome.report (n ++ "_io.csv") (reportRows (buildDict ins) (buildDict outs))⟩

/-- The whole extraction run on one source text (script lines 127-188):
unless the module-name pattern yields exactly one match the script prints
`moduleNameNotIdentified` and exits before any port extraction result is
used. -/
def run (src : String) : RunResult :=
  match findallModuleName src with
  | [n] => runWithName n src
  | _ => ⟨[Msg.moduleNameNotIdentified], Outcome.abortedNoModuleName⟩

/-- A position of the source text where the input/output rule `kw` matches:
the lookbehind admits the position and the pattern matches there. -/
def portRuleMatchAt (kw : String) (s : String) (p : Nat) : Bool :=
  allowedAt s.data p && (matchPortAt kw (s.data.drop p)).isSome

/-- A position of the source text where the module-name rule matches. -/
def moduleRuleMatchAt (s : String) (p : Nat) : Bool :=
  allowedAt s.data p && (matchModuleNameAt (s.data.drop p)).isSome

/-- First-seen-order key sequence: the insertion order a Python dict gives
to the keys of a stream of assignments. -/
def firstSeen (l : List String) : List String :=
  l.foldl (fun acc k => if k ∈ acc then acc else acc ++ [k]) []

/-- A source text whose declarations are newline-separated, so every rule
keyword is admitted by the lookbehind; the run succeeds end to end. -/
def srcBasic : String := "module top (\ninput a,\noutput b\n);"

/-- The canonical module header of the round-trip property, as the whole
source text. -/
def srcCanonical : String := "module foo (input a, input [7:0] b, output reg busy);"

/-- A source text with two rule-satisfying occurrences of the input
pattern, the second starting inside the first match (its name group
`9input` contains the keyword preceded by a digit, which the lookbehind
admits). -/
def srcOverlap : String := "\ninput 9input x"

/-- A source text with a double-dimension input and a scalar input. -/
def srcDims : String := "module m (\ninput wire [7:0] [0:3] x,\ninput y\n);"

/-- A source text declaring the input `d` twice (first `[1:0]`, then
`[3:0]`) with `e` in between. -/
def srcDup : String := "module m (\ninput [1:0] d,\ninput e,\ninput [3:0] d\n);"

end ModuleIo

/-!
### Cross-checks of the embedded matchers

Each of the following equalities was checked against the behaviour of the
reference `re` engine on the same pattern and text (capture tuples and,
where positions matter, match spans); they pin down the corner cases of the
embedding: the ordered-alternation backtracking of the optional groups, the
word boundary after `wire`/`reg`, the template alternatives, the greedy
match end including trailing whitespace and comma, and the lookbehind.
-/

section EngineCrossChecks
open ModuleIo

example : findallModuleName "module top (\ninput a,\noutput b\n);" = ["top"] := by decide
example : findallPorts "input" "module top (\ninput a,\noutput b\n);" =
    [⟨"input", "", "", "", "a"⟩] := by decide
example : run "module top (\ninput a,\noutput b\n);" =
    ⟨[], Outcome.report "top_io.csv"
      [["Signal Name", "Input/Output", "Signal Type", "Dimension"],
       ["a", "Input", "", ""], ["b", "Output", "", ""]]⟩ := by decide
example : findallPorts "output" "module foo (input a, input [7:0] b, output reg busy);" = [] := by
  decide
example : findallPorts "input" "module foo (input a, input [7:0] b, output reg busy);" =
    [⟨"input", "", "", "", "a"⟩] := by decide
example : findallParams "parameter INCR = 25770" = ["INCR"] := by decide

example : findallPorts "input" "\ninput 9input x" = [⟨"input", "", "", "", "9input"⟩] := by decide
example : portHits "input" "\ninput 9input x" = [⟨1, 14, ⟨"input", "", "", "", "9input"⟩⟩] := by
  decide
example : findallPorts "input" "input wire," = [⟨"input", "", "", "", "wire"⟩] := by decide
example : findallPorts "input" "input wire" = [⟨"input", "", "", "", "wire"⟩] := by decide
example : findallPorts "input" "input wirex y" = [⟨"input", "", "", "", "wirex"⟩] := by decide
example : findallPorts "input" "input $${foo} x" = [⟨"input", "", "$${foo}", "", "x"⟩] := by decide
example : findallPorts "input" "input $${9} z" = [⟨"input", "", "", "", "$${9}"⟩] := by decide
example : findallPorts "input" "input $${a}," = [⟨"input", "", "", "", "$${a}"⟩] := by decide
example : portHits "input" "input $${a}," = [⟨0, 12, ⟨"input", "", "", "", "$${a}"⟩⟩] := by decide
example : findallPorts "input" "input [7:0] [0:3] x," = [⟨"input", "", "[7:0]", "[0:3]", "x"⟩] := by
  decide
example : findallPorts "input" "input  \t reg [a-1:0] q ,next" =
    [⟨"input", "reg", "[a-1:0]", "", "q"⟩] := by decide
example : portHits "input" "input  \t reg [a-1:0] q ,next" =
    [⟨0, 24, ⟨"input", "reg", "[a-1:0]", "", "q"⟩⟩] := by decide
example : findallPorts "input" "(input a,input b)" =
    [⟨"input", "", "", "", "a"⟩, ⟨"input", "", "", "", "b"⟩] := by decide
example : findallPorts "input" "9input c," = [⟨"input", "", "", "", "c"⟩] := by decide
example : findallPorts "input" "input rega," = [⟨"input", "", "", "", "rega"⟩] := by decide
example : findallPorts "input" "input [7:0]b" = [⟨"input", "", "[7:0]", "", "b"⟩] := by decide
example : findallPorts "input" "input [7:0" = [] := by decide
example : findallPorts "input" "input wire  [x]  [y]  nm  ," =
    [⟨"input", "wire", "[x]", "[y]", "nm"⟩] := by decide
example : findallModuleName "module  serial #\n(\nparameter X = 2\n)\n(\ninput a\n);" =
    ["serial"] := by decide
example : findallModuleName "xmodule a(\nmodule b (" = ["b"] := by decide
example : findallModuleName "module $[PREFIX]core (" = ["core"] := by decide
example : findallModuleName "3module abc (" = ["abc"] := by decide
example : findallParams "parameter INCR = 25770, parameter [7:0] W=3,\nparameter [a:b] [c:d] Q =2" =
    ["INCR", "Q"] := by decide
example : findallParams "parameterX = 1" = ["X"] := by decide
example : findallParams "parameter [a] = 1" = [] := by decide

end EngineCrossChecks

namespace ModuleIo

/-! ### Dictionary lemmas -/

theorem upsert_keys (m : List (String × PortInfo)) (k : String) (v : PortInfo) :
    (upsert m k v).map Prod.fst =
      if k ∈ m.map Prod.fst then m.map Prod.fst else m.map Prod.fst ++ [k] := by
  induction m with
  | nil => simp [upsert]
  | cons hd tl ih =>
    obtain ⟨k0, v0⟩ := hd
    by_cases h : k0 = k
    · subst h
      simp [upsert]
    · simp only [upsert, if_neg h, List.map_cons, ih]
      by_cases hmem : k ∈ tl.map Prod.fst
      · simp [hmem, Ne.symm h]
      · simp [hmem, Ne.symm h]

theorem dlookup_upsert (m : List (String × PortInfo)) (k k' : String) (v : PortInfo) :
    dlookup k' (upsert m k v) = if k' = k then some v else dlookup k' m := by
  induction m with
  | nil =>
    by_cases h : k = k'
    · subst h
      simp [upsert, dlookup]
    · simp [upsert, dlookup, h, Ne.symm h]
  | cons hd tl ih =>
    obtain ⟨k0, v0⟩ := hd
    by_cases h : k0 = k
    · subst h
      by_cases h' : k0 = k'
      · subst h'
        simp [upsert, dlookup]
      · simp [upsert, dlookup, h', Ne.symm h']
    · by_cases h' : k0 = k'
      · subst h'
        simp [upsert, dlookup, h, Ne.symm h]
      · simp [upsert, dlookup, h, h', ih]

theorem mem_upsert {m : List (String × PortInfo)} {k k' : String} {v v' : PortInfo}
    (h : (k, v) ∈ upsert m k' v') : (k, v) ∈ m ∨ (k = k' ∧ v = v') := by
  induction m with
  | nil =>
    simp only [upsert, List.mem_singleton, Prod.mk.injEq] at h
    exact Or.inr h
  | cons hd tl ih =>
    obtain ⟨k0, v0⟩ := hd
    by_cases hk : k0 = k'
    · subst hk
      rw [upsert, if_pos rfl] at h
      rcases List.mem_cons.1 h with h | h
      · injection h with h1 h2
        exact Or.inr ⟨h1, h2⟩
      · exact Or.inl (List.mem_cons_of_mem _ h)
    · rw [upsert, if_neg hk] at h
      rcases List.mem_cons.1 h with h | h
      · exact Or.inl (List.mem_cons.2 (Or.inl h))
      · rcases ih h with h | h
        · exact Or.inl (List.mem_cons_of_mem _ h)
        · exact Or.inr h

theorem foldl_upsert_mem {ts : List RawPort} {m : List (String × PortInfo)}
    {k : String} {v : PortInfo}
    (h : (k, v) ∈ ts.foldl (fun m t => upsert m t.name (tupleInfo t)) m) :
    (k, v) ∈ m ∨ ∃ t ∈ ts, t.name = k ∧ tupleInfo t = v := by
  induction ts generalizing m with
  | nil => exact Or.inl h
  | cons t ts ih =>
    simp only [List.foldl_cons] at h
    rcases ih h with h | ⟨t', ht', h1, h2⟩
    · rcases mem_upsert h with h | ⟨h1, h2⟩
      · exact Or.inl h
      · exact Or.inr ⟨t, List.mem_cons_self t ts, h1.symm, h2.symm⟩
    · exact Or.inr ⟨t', List.mem_cons_of_mem _ ht', h1, h2⟩

theorem buildDict_mem {ts : List RawPort} {k : String} {v : PortInfo}
    (h : (k, v) ∈ buildDict ts) : ∃ t ∈ ts, t.name = k ∧ tupleInfo t = v := by
  rw [buildDict] at h
  rcases foldl_upsert_mem h with h | h
  · simp at h
  · exact h

theorem foldl_upsert_keys (ts : List RawPort) (m : List (String × PortInfo)) :
    (ts.foldl (fun m t => upsert m t.name (tupleInfo t)) m).map Prod.fst =
      (ts.map RawPort.name).foldl
        (fun acc k => if k ∈ acc then acc else acc ++ [k]) (m.map Prod.fst) := by
  induction ts generalizing m with
  | nil => simp
  | cons t ts ih =>
    simp only [List.foldl_cons, List.map_cons]
    rw [ih, upsert_keys]

theorem buildDict_keys (ts : List RawPort) :
    (buildDict ts).map Prod.fst = firstSeen (ts.map RawPort.name) := by
  rw [buildDict, firstSeen, foldl_upsert_keys]
  rfl

theorem foldl_firstSeen_nodup (l : List String) (acc : List String) (h : acc.Nodup) :
    (l.foldl (fun acc k => if k ∈ acc then acc else acc ++ [k]) acc).Nodup := by
  induction l generalizing acc with
  | nil => exact h
  | cons k l ih =>
    simp only [List.foldl_cons]
    by_cases hk : k ∈ acc
    · rw [if_pos hk]
      exact ih acc h
    · rw [if_neg hk]
      refine ih _ ?_
      simp [List.nodup_append, h, hk]

theorem buildDict_keys_nodup (ts : List RawPort) :
    ((buildDict ts).map Prod.fst).Nodup := by
  rw [buildDict_keys, firstSeen]
  exact foldl_firstSeen_nodup _ [] List.nodup_nil

theorem dlookup_buildDict (ts : List RawPort) (k : String) :
    dlookup k (buildDict ts) =
      ((ts.filter (fun t => t.name == k)).getLast?).map tupleInfo := by
  induction ts using List.reverseRecOn with
  | nil => simp [buildDict, dlookup]
  | append_singleton ts t ih =>
    have hstep : buildDict (ts ++ [t]) = upsert (buildDict ts) t.name (tupleInfo t) := by
      rw [buildDict, buildDict, List.foldl_append, List.foldl_cons, List.foldl_nil]
    rw [hstep, dlookup_upsert, List.filter_append]
    by_cases h : k = t.name
    · rw [if_pos h]
      have : List.filter (fun t' => t'.name == k) [t] = [t] := by
        simp [List.filter, h]
      rw [this, List.getLast?_concat]
      rfl
    · rw [if_neg h]
      have hne : (t.name == k) = false := beq_eq_false_iff_ne.mpr (Ne.symm h)
      have hfil : List.filter (fun t' => t'.name == k) [t] = [] := by
        simp [hne]
      rw [hfil, List.append_nil, ih]

/-! ### Capture lemmas for the port matcher -/

theorem orElseO_eq_some {α : Type} {a b : Option α} {x : α} (h : orElseO a b = some x) :
    a = some x ∨ b = some x := by
  rcases a with _ | y
  · exact Or.inr h
  · exact Or.inl h

theorem matchReg_eq {cs g r : List Char} (h : matchReg cs = some (g, r)) : g = "reg".data := by
  unfold matchReg at h
  repeat' split at h
  all_goals simp_all

theorem matchStorage_eq {cs g r : List Char} (h : matchStorage cs = some (g, r)) :
    g = "wire".data ∨ g = "reg".data := by
  unfold matchStorage at h
  split at h
  · split at h
    · simp_all
    · split at h
      · exact Or.inr (matchReg_eq h)
      · simp_all
  · exact Or.inr (matchReg_eq h)

theorem finishName_storage {kw g2 g3 g4 : String} {cs : List Char} {t : RawPort}
    {r : List Char} (h : finishName kw g2 g3 g4 cs = some (t, r)) :
    t.storageClassRaw = g2 := by
  unfold finishName at h
  split at h
  · simp only [Option.some.injEq, Prod.mk.injEq] at h
    obtain ⟨h1, _⟩ := h
    subst h1
    rfl
  · cases h

theorem portFrom4_storage {kw g2 g3 : String} {cs : List Char} {t : RawPort}
    {r : List Char} (h : portFrom4 kw g2 g3 cs = some (t, r)) :
    t.storageClassRaw = g2 := by
  unfold portFrom4 at h
  split at h
  · rcases orElseO_eq_some h with h | h <;> exact finishName_storage h
  · exact finishName_storage h

theorem portFrom3_storage {kw g2 : String} {cs : List Char} {t : RawPort}
    {r : List Char} (h : portFrom3 kw g2 cs = some (t, r)) :
    t.storageClassRaw = g2 := by
  unfold portFrom3 at h
  split at h
  · rcases orElseO_eq_some h with h | h <;> exact portFrom4_storage h
  · exact portFrom4_storage h

theorem portFromG2_storage {kw : String} {cs : List Char} {t : RawPort} {r : List Char}
    (h : portFromG2 kw cs = some (t, r)) :
    t.storageClassRaw = "" ∨ t.storageClassRaw = "wire" ∨ t.storageClassRaw = "reg" := by
  unfold portFromG2 at h
  split at h
  · rename_i g2 r' heq
    rcases orElseO_eq_some h with h | h
    · rcases matchStorage_eq heq with hw | hw <;> subst hw
      · exact Or.inr (Or.inl (portFrom3_storage h))
      · exact Or.inr (Or.inr (portFrom3_storage h))
    · exact Or.inl (portFrom3_storage h)
  · exact Or.inl (portFrom3_storage h)

theorem portFromG2_storage_empty {kw : String} {cs : List Char} {t : RawPort}
    {r : List Char} (hn : matchStorage cs = none) (h : portFromG2 kw cs = some (t, r)) :
    t.storageClassRaw = "" := by
  unfold portFromG2 at h
  rw [hn] at h
  exact portFrom3_storage h

theorem matchPortAt_storage {kw : String} {cs : List Char} {t : RawPort} {r : List Char}
    (h : matchPortAt kw cs = some (t, r)) :
    t.storageClassRaw = "" ∨ t.storageClassRaw = "wire" ∨ t.storageClassRaw = "reg" := by
  unfold matchPortAt at h
  split at h
  · cases h
  · split at h
    · cases h
    · exact portFromG2_storage h

theorem matchPortAt_nil (kw : String) : matchPortAt kw [] = none := by
  obtain ⟨l⟩ := kw
  cases l <;> rfl

/-! ### Scan lemmas: soundness, order, completeness -/

theorem scanHits_sound (kw : String) (s : List Char) :
    ∀ fuel i, ∀ h ∈ scanHits kw s fuel i,
      i ≤ h.start ∧ allowedAt s h.start = true ∧
      ∃ rest, matchPortAt kw (s.drop h.start) = some (h.raw, rest) ∧
        h.stop = h.start + max 1 ((s.drop h.start).length - rest.length) := by
  intro fuel
  induction fuel with
  | zero =>
    intro i h hh
    simp [scanHits] at hh
  | succ fuel ih =>
    intro i h hh
    rw [scanHits] at hh
    by_cases hi : i < s.length
    · rw [if_pos hi] at hh
      by_cases ha : allowedAt s i = true
      · rw [if_pos ha] at hh
        rcases hm : matchPortAt kw (s.drop i) with _ | ⟨t, rest⟩ <;> rw [hm] at hh
        · have := ih (i + 1) h hh
          exact ⟨le_trans (Nat.le_succ i) this.1, this.2⟩
        · simp only [List.mem_cons] at hh
          rcases hh with rfl | hh
          · exact ⟨le_refl i, ha, rest, hm, rfl⟩
          · have := ih _ h hh
            exact ⟨le_trans (Nat.le_add_right i _) this.1, this.2⟩
      · rw [if_neg ha] at hh
        have := ih (i + 1) h hh
        exact ⟨le_trans (Nat.le_succ i) this.1, this.2⟩
    · rw [if_neg hi] at hh
      cases hh

theorem scanHits_chain (kw : String) (s : List Char) :
    ∀ fuel i, (scanHits kw s fuel i).Pairwise (fun a b => a.stop ≤ b.start) := by
  intro fuel
  induction fuel with
  | zero =>
    intro i
    simp [scanHits]
  | succ fuel ih =>
    intro i
    rw [scanHits]
    by_cases hi : i < s.length
    · rw [if_pos hi]
      by_cases ha : allowedAt s i = true
      · rw [if_pos ha]
        rcases hm : matchPortAt kw (s.drop i) with _ | ⟨t, rest⟩
        · exact ih (i + 1)
        · refine List.Pairwise.cons ?_ (ih _)
          intro b hb
          exact (scanHits_sound kw s fuel _ b hb).1
      · rw [if_neg ha]
        exact ih (i + 1)
    · rw [if_neg hi]
      exact List.Pairwise.nil

theorem scanHits_complete (kw : String) (s : List Char) :
    ∀ fuel i p, i ≤ p → s.length < i + fuel → allowedAt s p = true →
      (matchPortAt kw (s.drop p)).isSome = true →
      ∃ h ∈ scanHits kw s fuel i, h.start ≤ p ∧ p < h.stop := by
  intro fuel
  have hplen : ∀ p, (matchPortAt kw (s.drop p)).isSome = true → p < s.length := by
    intro p hp
    by_contra hle
    rw [List.drop_eq_nil_of_le (Nat.le_of_not_lt hle), matchPortAt_nil] at hp
    cases hp
  induction fuel with
  | zero =>
    intro i p hip hbound hall hsome
    exact absurd (lt_of_le_of_lt hip (hplen p hsome)) (by omega)
  | succ fuel ih =>
    intro i p hip hbound hall hsome
    rw [scanHits]
    have hplt := hplen p hsome
    have hi : i < s.length := lt_of_le_of_lt hip hplt
    rw [if_pos hi]
    by_cases ha : allowedAt s i = true
    · rw [if_pos ha]
      rcases hm : matchPortAt kw (s.drop i) with _ | ⟨t, rest⟩
      · have hne : i ≠ p := by
          intro hh
          rw [hh] at hm
          rw [hm] at hsome
          cases hsome
        exact ih (i + 1) p (by omega) (by omega) hall hsome
      · by_cases hp : p < i + max 1 ((s.drop i).length - rest.length)
        · exact ⟨⟨i, i + max 1 ((s.drop i).length - rest.length), t⟩,
            List.mem_cons_self _ _, hip, hp⟩
        · obtain ⟨h, hh, h1, h2⟩ :=
            ih (i + max 1 ((s.drop i).length - rest.length)) p (by omega) (by omega) hall hsome
          exact ⟨h, List.mem_cons_of_mem _ hh, h1, h2⟩
    · rw [if_neg ha]
      have hne : i ≠ p := by
        intro hh
        rw [hh] at ha
        exact ha hall
      exact ih (i + 1) p (by omega) (by omega) hall hsome

/-! ### Run-level lemmas -/

theorem runMsgs_mem {ins outs : List RawPort} {m : Msg} (h : m ∈ runMsgs ins outs) :
    m = Msg.noInputsIdentified ∨ m = Msg.noOutputsIdentified := by
  unfold runMsgs at h
  rcases List.mem_append.1 h with h | h <;> split at h <;> simp_all

theorem run_eq_abort {src : String} (h : (findallModuleName src).length ≠ 1) :
    run src = ⟨[Msg.moduleNameNotIdentified], Outcome.abortedNoModuleName⟩ := by
  unfold run
  rcases hn : findallModuleName src with _ | ⟨n, _ | ⟨m, l⟩⟩
  · rfl
  · rw [hn] at h
    simp at h
  · rfl

theorem run_eq_withName {src n : String} (h : findallModuleName src = [n]) :
    run src = runWithName n src := by
  unfold run
  rw [h]

theorem runWithName_messages (n src : String) :
    (runWithName n src).messages =
      runMsgs (findallPorts "input" src) (findallPorts "output" src) := by
  unfold runWithName
  dsimp only
  split <;> rfl

theorem runWithName_outcome (n src : String) :
    (runWithName n src).outcome = Outcome.nameError ∨
    (runWithName n src).outcome = Outcome.report (n ++ "_io.csv")
      (reportRows (buildDict (findallPorts "input" src))
        (buildDict (findallPorts "output" src))) := by
  unfold runWithName
  dsimp only
  split
  · exact Or.inl rfl
  · exact Or.inr rfl

theorem findallPorts_storage {kw s : String} {t : RawPort} (h : t ∈ findallPorts kw s) :
    t.storageClassRaw = "" ∨ t.storageClassRaw = "wire" ∨ t.storageClassRaw = "reg" := by
  unfold findallPorts portHits at h
  obtain ⟨hit, hmem, rfl⟩ := List.mem_map.1 h
  obtain ⟨-, -, rest, hm, -⟩ := scanHits_sound kw s.data _ _ hit hmem
  exact matchPortAt_storage hm

/-! ### Claim theorems -/

/-- C1: module-name resolution is exact-one-or-abort.  If the module-name
rule yields exactly one match, the run keeps that identifier (any report
written is named from it) and never signals `moduleNameNotIdentified`; if
it yields zero or two-or-more matches, the run prints exactly
`moduleNameNotIdentified` and aborts, producing no record and no report. -/
theorem c1_module_name_gate (src : String) :
    ((findallModuleName src).length ≠ 1 →
      run src = ⟨[Msg.moduleNameNotIdentified], Outcome.abortedNoModuleName⟩) ∧
    (∀ n, findallModuleName src = [n] →
      Msg.moduleNameNotIdentified ∉ (run src).messages ∧
      (run src).outcome ≠ Outcome.abortedNoModuleName ∧
      ∀ f rows, (run src).outcome = Outcome.report f rows → f = n ++ "_io.csv") := by
  constructor
  · exact run_eq_abort
  · intro n hn
    rw [run_eq_withName hn]
    refine ⟨?_, ?_, ?_⟩
    · rw [runWithName_messages]
      intro hmem
      rcases runMsgs_mem hmem with h | h <;> cases h
    · rcases runWithName_outcome n src with h | h <;> rw [h] <;> simp
    · intro f rows hf
      rcases runWithName_outcome n src with h | h <;> rw [h] at hf
      · cases hf
      · injection hf with h1 h2
        exact h1.symm

/-- C1 witness: on `srcBasic` the module-name rule yields exactly
`["top"]`, and the run indeed never signals `moduleNameNotIdentified`. -/
theorem c1_witness :
    findallModuleName srcBasic = ["top"] ∧
    Msg.moduleNameNotIdentified ∉ (run srcBasic).messages :=
  ⟨by decide, ((c1_module_name_gate srcBasic).2 "top" (by decide)).1⟩

/-- C2 counterexample: on the canonical header the input map has no entry
`b` and the output map has no entry `busy` (the second `input` and the
`output` keyword are preceded by a space, which the lookbehind rejects), so
extraction does not yield the claimed maps. -/
theorem c2_counterexample :
    dlookup "b" (buildDict (findallPorts "input" srcCanonical)) = none ∧
    dlookup "busy" (buildDict (findallPorts "output" srcCanonical)) = none := by decide

/-- C2 amended: on the canonical header only the first input matches
(yielding `a`, scalar, unspecified storage); the space-preceded `input` and
`output` declarations are not matched, the output list is empty, the run
prints `noOutputsIdentified` and then stops with the unbound-variable
error, producing no report. -/
theorem c2_canonical_header :
    findallPorts "input" srcCanonical = [⟨"input", "", "", "", "a"⟩] ∧
    findallPorts "output" srcCanonical = [] ∧
    run srcCanonical = ⟨[Msg.noOutputsIdentified], Outcome.nameError⟩ := by decide

/-- C3: a source with one input and no outputs prints the advisory
`noOutputsIdentified` but then crashes with the Python `NameError`
(`numOutputs` was never assigned) instead of returning an interface record,
and symmetrically for a source with one output and no inputs. -/
theorem c3_empty_direction_crashes :
    run "module topA (\ninput a\n);" =
      ⟨[Msg.noOutputsIdentified], Outcome.nameError⟩ ∧
    run "module topB (\noutput b\n);" =
      ⟨[Msg.noInputsIdentified], Outcome.nameError⟩ ∧
    findallPorts "input" "module topA (\ninput a\n);" = [⟨"input", "", "", "", "a"⟩] ∧
    findallPorts "output" "module topB (\noutput b\n);" = [⟨"output", "", "", "", "b"⟩] := by
  decide

/-- C4: for any raw match list, the direction map has pairwise-distinct
keys in first-seen order, and looking a name up returns the record of the
last declaration with that name (last-write-wins, updated in place).
Concretely, `srcDup` (which declares `d`, then `e`, then `d` again) yields
the map `{d ↦ [3:0], e ↦ scalar}` with `d` still first. -/
theorem c4_duplicate_ports :
    (∀ ts : List RawPort,
      ((buildDict ts).map Prod.fst).Nodup ∧
      (buildDict ts).map Prod.fst = firstSeen (ts.map RawPort.name) ∧
      ∀ k, dlookup k (buildDict ts) =
        ((ts.filter (fun t => t.name == k)).getLast?).map tupleInfo) ∧
    buildDict (findallPorts "input" srcDup) =
      [("d", ⟨"", "[3:0]"⟩), ("e", ⟨"", ""⟩)] := by
  refine ⟨fun ts => ⟨buildDict_keys_nodup ts, buildDict_keys ts, fun k => dlookup_buildDict ts k⟩, ?_⟩
  decide

/-- C5: every entry of a direction map takes its dimension from the
verbatim concatenation of the two dimension captures of one of the raw
tuples with that name; concretely, the double-dimension port of `srcDims`
gets `[7:0][0:3]` and its scalar port gets the empty string. -/
theorem c5_dimension_concat :
    (∀ (ts : List RawPort) (k : String) (v : PortInfo), (k, v) ∈ buildDict ts →
      ∃ t ∈ ts, t.name = k ∧ v.signalDimension = t.dimA ++ t.dimB) ∧
    buildDict (findallPorts "input" srcDims) =
      [("x", ⟨"wire", "[7:0][0:3]"⟩), ("y", ⟨"", ""⟩)] := by
  constructor
  · intro ts k v h
    obtain ⟨t, ht, h1, h2⟩ := buildDict_mem h
    refine ⟨t, ht, h1, ?_⟩
    rw [← h2]
    rfl
  · decide

/-- C5 witness: the entry `x ↦ (wire, [7:0][0:3])` of the `srcDims` input
map comes from a raw tuple whose two dimension captures concatenate to
`[7:0][0:3]`. -/
theorem c5_witness :
    (("x", (⟨"wire", "[7:0][0:3]"⟩ : PortInfo)) ∈ buildDict (findallPorts "input" srcDims)) ∧
    ∃ t ∈ findallPorts "input" srcDims, t.name = "x" ∧
      (PortInfo.mk "wire" "[7:0][0:3]").signalDimension = t.dimA ++ t.dimB :=
  ⟨by decide, c5_dimension_concat.1 _ "x" ⟨"wire", "[7:0][0:3]"⟩ (by decide)⟩

/-- C6: when the storage-class group does not match (no `wire`/`reg`
keyword at that point), the port's storage capture is the empty string; and
every map entry's storage class is the empty string, `wire`, or `reg` —
never anything else. -/
theorem c6_storage_class_default :
    (∀ (kw : String) (cs : List Char) (t : RawPort) (r : List Char),
      matchStorage cs = none → portFromG2 kw cs = some (t, r) → t.storageClassRaw = "") ∧
    (∀ (kw s k : String) (v : PortInfo),
      (k, v) ∈ buildDict (findallPorts kw s) →
      v.signalType = "" ∨ v.signalType = "wire" ∨ v.signalType = "reg") := by
  constructor
  · intro kw cs t r hn h
    exact portFromG2_storage_empty hn h
  · intro kw s k v h
    obtain ⟨t, ht, -, h2⟩ := buildDict_mem h
    have hv : v.signalType = t.storageClassRaw := by
      rw [← h2]
      rfl
    rw [hv]
    exact findallPorts_storage ht

/-- C6 witness: for the declaration tail `a,` (no storage keyword), the
storage group fails and the extracted capture is the empty string. -/
theorem c6_witness :
    matchStorage "a,".data = none ∧
    (⟨"input", "", "", "", "a"⟩ : RawPort).storageClassRaw = "" :=
  ⟨by decide,
    c6_storage_class_default.1 "input" "a,".data ⟨"input", "", "", "", "a"⟩ []
      (by decide) (by decide)⟩

/-- C7 counterexample: in `srcOverlap` the input rule matches at position 1
and also at position 8 (inside the first match), yet the raw match list has
exactly one element — an occurrence can be dropped, so "every textual
occurrence satisfying the rule appears exactly once" fails as stated. -/
theorem c7_counterexample :
    portRuleMatchAt "input" srcOverlap 1 = true ∧
    portRuleMatchAt "input" srcOverlap 8 = true ∧
    (findallPorts "input" srcOverlap).length = 1 := by decide

/-- C7 amended: the scan reports non-overlapping matches in strictly
increasing source order, each reported hit is a genuine rule match at its
start position, every rule-satisfying position is covered by exactly one
reported hit (it either starts a hit or lies strictly inside one, in which
case it is subsumed rather than reported), and the raw match list is the
hits' capture tuples in scan order. -/
theorem c7_scan_coverage (kw s : String) :
    (portHits kw s).Pairwise (fun a b => a.stop ≤ b.start) ∧
    (∀ h ∈ portHits kw s, h.start < h.stop ∧ allowedAt s.data h.start = true ∧
      ∃ rest, matchPortAt kw (s.data.drop h.start) = some (h.raw, rest)) ∧
    (∀ p, portRuleMatchAt kw s p = true →
      ∃ h ∈ portHits kw s, h.start ≤ p ∧ p < h.stop) ∧
    findallPorts kw s = (portHits kw s).map Hit.raw := by
  refine ⟨scanHits_chain kw s.data _ 0, ?_, ?_, rfl⟩
  · intro h hmem
    obtain ⟨-, hall, rest, hm, hstop⟩ := scanHits_sound kw s.data _ 0 h hmem
    refine ⟨?_, hall, rest, hm⟩
    omega
  · intro p hp
    rw [portRuleMatchAt, Bool.and_eq_true] at hp
    exact scanHits_complete kw s.data _ 0 p (Nat.zero_le p) (by omega) hp.1 hp.2

/-- C7 witness: the subsumed occurrence at position 8 of `srcOverlap` is
covered by a reported hit. -/
theorem c7_witness :
    portRuleMatchAt "input" srcOverlap 8 = true ∧
    ∃ h ∈ portHits "input" srcOverlap, h.start ≤ 8 ∧ 8 < h.stop :=
  ⟨by decide, (c7_scan_coverage "input" srcOverlap).2.2.1 8 (by decide)⟩

/-- C8: whenever the run writes a report, its rows are exactly the single
header row `Signal Name, Input/Output, Signal Type, Dimension` followed by
one row `(name, "Input", storage capture, dimension)` per input-map entry
in map order and then one row `(name, "Output", storage capture,
dimension)` per output-map entry in map order; the Signal Type cell is the
raw capture, hence empty exactly for an unspecified storage class. -/
theorem c8_report_rows (src f : String) (rows : List (List String))
    (h : (run src).outcome = Outcome.report f rows) :
    rows = ["Signal Name", "Input/Output", "Signal Type", "Dimension"] ::
      ((buildDict (findallPorts "input" src)).map
          (fun kv => [kv.1, "Input", kv.2.signalType, kv.2.signalDimension]) ++
       (buildDict (findallPorts "output" src)).map
          (fun kv => [kv.1, "Output", kv.2.signalType, kv.2.signalDimension])) := by
  unfold run at h
  rcases hn : findallModuleName src with _ | ⟨n, _ | _⟩ <;> rw [hn] at h
  · cases h
  · rcases runWithName_outcome n src with ho | ho <;> rw [ho] at h
    · cases h
    · injection h with h1 h2
      rw [← h2]
      rfl
  · cases h

/-- C8 witness: the report of `srcBasic` has exactly the header row, then
its input row, then its output row. -/
theorem c8_witness :
    (run srcBasic).outcome = Outcome.report "top_io.csv"
      [["Signal Name", "Input/Output", "Signal Type", "Dimension"],
       ["a", "Input", "", ""], ["b", "Output", "", ""]] ∧
    [["Signal Name", "Input/Output", "Signal Type", "Dimension"],
       ["a", "Input", "", ""], ["b", "Output", "", ""]] =
      ["Signal Name", "Input/Output", "Signal Type", "Dimension"] ::
        ((buildDict (findallPorts "input" srcBasic)).map
            (fun kv => [kv.1, "Input", kv.2.signalType, kv.2.signalDimension]) ++
         (buildDict (findallPorts "output" srcBasic)).map
            (fun kv => [kv.1, "Output", kv.2.signalType, kv.2.signalDimension])) :=
  ⟨by decide, c8_report_rows srcBasic "top_io.csv" _ (by decide)⟩

/-- C9 counterexample: `srcBasic` contains no parameter declaration, yet
the run does not report `noParamsFound` — the script defines the message
(line 68) and the parameter pattern (line 123) but never uses either. -/
theorem c9_counterexample :
    Msg.noParamsFound ∉ (run srcBasic).messages := by decide

/-- C9 amended: the parameter rule exists in the pattern library and, when
applied, captures each parameter name (as it does on a sample declaration),
but the program never applies it: no run ever emits `noParamsFound`, so the
parameter outcome trivially never blocks or alters the port-extraction
result. -/
theorem c9_params_never_reported :
    (∀ src, Msg.noParamsFound ∉ (run src).messages) ∧
    findallParams "parameter INCR = 25770" = ["INCR"] := by
  constructor
  · intro src
    unfold run
    rcases hn : findallModuleName src with _ | ⟨n, _ | _⟩
    · intro hmem
      simp at hmem
    · show Msg.noParamsFound ∉ (runWithName n src).messages
      rw [runWithName_messages]
      intro hmem
      rcases runMsgs_mem hmem with h | h <;> cases h
    · intro hmem
      simp at hmem
  · decide

/-- C9 witness: the amended statement at one concrete source text. -/
theorem c9_witness : Msg.noParamsFound ∉ (run srcBasic).messages :=
  c9_params_never_reported.1 srcBasic

/-- C10: an occurrence of `module`, `input` or `output` whose immediately
preceding character is a space is rejected by the negative lookbehind (the
excluded set is space, `/` and identifier characters), so no rule matches
at such a position and no reported match starts there — a declaration
indented with spaces, or following a comma-space on the same line, is not
extracted. -/
theorem c10_space_lookbehind (s : String) (j : Nat) (h : s.data[j]? = some ' ') :
    allowedAt s.data (j + 1) = false ∧
    portRuleMatchAt "input" s (j + 1) = false ∧
    portRuleMatchAt "output" s (j + 1) = false ∧
    moduleRuleMatchAt s (j + 1) = false ∧
    (∀ hh ∈ portHits "input" s, hh.start ≠ j + 1) ∧
    (∀ hh ∈ portHits "output" s, hh.start ≠ j + 1) := by
  have hal : allowedAt s.data (j + 1) = false := by
    unfold allowedAt
    rw [if_neg (Nat.succ_ne_zero j), Nat.add_sub_cancel, h]
    decide
  have hstart : ∀ kw : String, ∀ hh ∈ portHits kw s, hh.start ≠ j + 1 := by
    intro kw hh hmem heq
    unfold portHits at hmem
    have hsound := (scanHits_sound kw s.data _ 0 hh hmem).2.1
    rw [heq] at hsound
    rw [hsound] at hal
    cases hal
  refine ⟨hal, ?_, ?_, ?_, hstart "input", hstart "output"⟩
  · unfold portRuleMatchAt
    rw [hal]
    rfl
  · unfold portRuleMatchAt
    rw [hal]
    rfl
  · unfold moduleRuleMatchAt
    rw [hal]
    rfl

/-- C10 witness: in `" input a,"` the keyword at position 1 follows a
space, and the input rule does not match there. -/
theorem c10_witness :
    (" input a," : String).data[0]? = some ' ' ∧
    portRuleMatchAt "input" " input a," 1 = false :=
  ⟨by decide, (c10_space_lookbehind " input a," 0 (by decide)).2.1⟩

end ModuleIo
